import Mathlib

/-!
Shallow embedding of the core of the `shorty` URL-shortening service
(backend/app): base62 code generation (`services/url_shortner.py`), the
sliding-window rate limiter (`services/rate_limiter.py`), the Redis cache
layer (`cache/__init__.py`), the URL repository
(`db/repositories/url.py`), the redirect endpoint (`main.py`), the
URL-info endpoint (`api/urls.py`) and the rate-limit middleware
(`middleware/rate_limit.py`), together with theorems settling the frozen
claims about them.

Modelling conventions: machine timestamps (Python floats of seconds since
the epoch) are rationals; Python sets are lists used only through
membership; Redis sorted sets are finite sets of scores (a member string
`str(now)` is identified with its score, the map being injective on the
values the code stores); the cryptographically secure random source
`secrets.choice` is an explicit oracle `Nat -> Char` consumed
position by position; fallible cache operations return `Except` with
`CacheErr.unavailable` standing for a raised connection error.
-/

/-- Configuration defaults from `config.py` (`Settings`), restricted to the
fields the claims touch.  Each default value is the literal from the
source. -/
structure Settings where
  redis_cache_ttl : Nat := 86400
  rate_limit_per_minute : Nat := 100
  rate_limit_per_hour : Nat := 1000
  url_creation_limit_per_minute : Nat := 10
  short_code_length : Nat := 6
deriving DecidableEq

/-- The global `settings = Settings()` instance: every field at its
default. -/
def settings : Settings := {}

/-- `BASE62_ALPHABET = string.ascii_lowercase + string.ascii_uppercase +
string.digits` from `services/url_shortner.py`. -/
def BASE62_ALPHABET : List Char :=
  "abcdefghijklmnopqrstuvwxyzABCDEFGHIJKLMNOPQRSTUVWXYZ0123456789".toList

/-- The digit-emitting loop of `encode_base62`: repeatedly `divmod` by 62,
emitting `BASE62_ALPHABET[remainder]`; the Python code appends remainders
and reverses, which is the same as recursing on the quotient first. -/
def encodeDigits (num : Nat) : List Char :=
  if h : num = 0 then []
  else encodeDigits (num / 62) ++ [BASE62_ALPHABET.getD (num % 62) 'a']
termination_by num
decreasing_by exact Nat.div_lt_self (Nat.pos_of_ne_zero h) (by norm_num)

/-- `encode_base62` from `services/url_shortner.py`: `0` maps to
`BASE62_ALPHABET[0]`, any other number to its base-62 digits, most
significant first. -/
def encode_base62 (num : Nat) : List Char :=
  if num = 0 then [BASE62_ALPHABET.getD 0 'a'] else encodeDigits num

/-- `decode_base62` from `services/url_shortner.py`:
`num = num * 62 + BASE62_ALPHABET.index(char)` over the characters, left
to right.  Python's `.index` raises on a character outside the alphabet;
here `List.indexOf` is total, which agrees with the source on every
string whose characters are all in the alphabet (the only strings the
claims apply it to). -/
def decode_base62 (encoded : List Char) : Nat :=
  encoded.foldl (fun num c => num * 62 + BASE62_ALPHABET.indexOf c) 0

/-- `is_valid_short_code` from `services/url_shortner.py`: non-empty,
length between 3 and 10, and every character in the base62 alphabet. -/
def is_valid_short_code (short_code : String) : Bool :=
  if short_code.toList = [] then false
  else if ¬ (3 ≤ short_code.length ∧ short_code.length ≤ 10) then false
  else short_code.toList.all (fun c => c ∈ BASE62_ALPHABET)

/-- `generate_short_code(length)` from `services/url_shortner.py`:
`length` draws from `secrets.choice(BASE62_ALPHABET)`.  The secure random
source is the oracle `choice`; `pos` is how many characters previous
calls have already consumed from it. -/
def generate_short_code (choice : Nat → Char) (pos length : Nat) : String :=
  String.mk ((List.range length).map (fun i => choice (pos + i)))

/-- The outcome of `generate_unique_short_code`:
`ValueError("Invalid custom alias format")`,
`ValueError("Custom alias already exists")`, a returned code, or the
final `return None`. -/
inductive GenResult where
  | invalidAlias : GenResult
  | aliasTaken : GenResult
  | code (c : String) : GenResult
  | exhausted : GenResult
deriving DecidableEq

/-- One `for _ in range(attempts)` loop of `generate_unique_short_code`:
draw a code of length `length`, return the first draw absent from
`existing_codes`, else `none` once attempts run out.  Each draw consumes
`length` characters of the oracle starting at `pos`. -/
def tryDraws (existing_codes : List String) (choice : Nat → Char)
    (length attempts pos : Nat) : Option String :=
  match attempts with
  | 0 => none
  | a + 1 =>
    let short_code := generate_short_code choice pos length
    if short_code ∈ existing_codes then
      tryDraws existing_codes choice length a (pos + length)
    else some short_code

/-- `generate_unique_short_code(existing_codes, custom_alias,
max_attempts)` from `services/url_shortner.py`.  `if custom_alias:` is
Python truthiness, so `None` and the empty string both fall through to
random generation; round one draws `max_attempts` codes at
`s.short_code_length`, round two `max_attempts` more at
`s.short_code_length + 1` (the second loop continues consuming the same
random source). -/
def generate_unique_short_code (s : Settings) (existing_codes : List String)
    (custom_alias : Option String) (max_attempts : Nat)
    (choice : Nat → Char) : GenResult :=
  let aliasTruthy : Bool :=
    match custom_alias with
    | some a => a ≠ ""
    | none => false
  if aliasTruthy then
    let a := custom_alias.getD ""
    if ¬ is_valid_short_code a then GenResult.invalidAlias
    else if a ∈ existing_codes then GenResult.aliasTaken
    else GenResult.code a
  else
    match tryDraws existing_codes choice s.short_code_length max_attempts 0 with
    | some c => GenResult.code c
    | none =>
      match tryDraws existing_codes choice (s.short_code_length + 1) max_attempts
          (s.short_code_length * max_attempts) with
      | some c => GenResult.code c
      | none => GenResult.exhausted

/-- A Redis sorted-set key as the rate limiter uses it: the member set
(member `str(now)` identified with its score `now`) together with the
absolute instant at which the last `EXPIRE` will delete the key. -/
structure ZKey where
  members : Finset ℚ
  expiresAt : Option ℚ

/-- The Redis keyspace seen by the rate limiter. -/
abbrev RedisState : Type := String → ZKey

/-- The key `f"{prefix}:{identifier}"` built by `check_rate_limit`. -/
def rlKey (pre identifier : String) : String := pre ++ ":" ++ identifier

/-- `check_rate_limit(identifier, limit, window_seconds, prefix)` from
`services/rate_limiter.py` at time `now`, acting on the Redis state: one
pipeline of `zremrangebyscore(key, 0, window_start)` (inclusive range, as
in Redis), `zcard`, `zadd(key, {str(now): now})`, `expire(key,
window_seconds)`; returns the new state, `is_allowed = request_count <
limit` and `remaining = max(0, limit - request_count - 1)` (natural
subtraction is that `max`). -/
def check_rate_limit (st : RedisState) (identifier : String) (limit : Nat)
    (window_seconds : ℚ) (pre : String) (now : ℚ) :
    RedisState × Bool × Nat :=
  let key := rlKey pre identifier
  let window_start := now - window_seconds
  let kept := (st key).members.filter (fun s => ¬ (0 ≤ s ∧ s ≤ window_start))
  let request_count := kept.card
  let st' := Function.update st key
    { members := insert now kept, expiresAt := some (now + window_seconds) }
  (st', decide (request_count < limit), limit - request_count - 1)

/-- `check_ip_rate_limit` from `services/rate_limiter.py`: `check_rate_limit`
with the configured per-minute limit, window 60, key space
`ratelimit:ip`. -/
def check_ip_rate_limit (s : Settings) (st : RedisState) (ip_address : String)
    (now : ℚ) : RedisState × Bool × Nat :=
  check_rate_limit st ip_address s.rate_limit_per_minute 60 "ratelimit:ip" now

/-- `check_user_rate_limit` from `services/rate_limiter.py`: the configured
per-hour limit, window 3600, key space `ratelimit:user`. -/
def check_user_rate_limit (s : Settings) (st : RedisState) (user_id : String)
    (now : ℚ) : RedisState × Bool × Nat :=
  check_rate_limit st user_id s.rate_limit_per_hour 3600 "ratelimit:user" now

/-- `check_url_creation_limit` from `services/rate_limiter.py`: the
configured URL-creation limit, window 60, key space
`ratelimit:url_creation`. -/
def check_url_creation_limit (s : Settings) (st : RedisState) (user_id : String)
    (now : ℚ) : RedisState × Bool × Nat :=
  check_rate_limit st user_id s.url_creation_limit_per_minute 60
    "ratelimit:url_creation" now

/-- The `self.rate_limits` dict literal from
`middleware/rate_limit.py` (`RateLimitMiddleware.__init__`), in insertion
order.  It is built from integer literals; it does not read `Settings`. -/
def rate_limits : List (String × Nat) :=
  [("/api/urls/", 20), ("/api/auth/register", 5), ("/api/auth/login", 10)]

/-- The limit-selection loop of `RateLimitMiddleware.dispatch`: the first
pattern the request path starts with wins (`path.startswith(pattern)`,
expressed over the character sequences). -/
def middlewareLimitFor (path : String) : Option Nat :=
  (rate_limits.find? (fun p => p.1.toList.isPrefixOf path.toList)).map
    (fun p => p.2)

/-- A value stored in the Redis cache: either the well-formed JSON object
`{"id": ..., "long_url": ...}` the redirect path writes, or a string
`json.loads` rejects. -/
inductive JsonVal where
  | obj (id : Nat) (long_url : String) : JsonVal
  | malformed : JsonVal
deriving DecidableEq

/-- A raised Redis client error (the cache backend is unreachable). -/
inductive CacheErr where
  | unavailable : CacheErr
deriving DecidableEq

/-- The Redis cache as the URL cache uses it: whether the backend is up,
and the live entries — each a value together with the TTL it was written
with. -/
structure CacheState where
  up : Bool
  entries : String → Option (JsonVal × Nat)

/-- `cache_get` from `cache/__init__.py`: `client.get(key)`.  No exception
handling in the source, so an unreachable backend surfaces as the raised
error. -/
def cache_get (c : CacheState) (key : String) :
    Except CacheErr (Option JsonVal) :=
  if c.up then Except.ok ((c.entries key).map (fun e => e.1))
  else Except.error CacheErr.unavailable

/-- `cache_set` from `cache/__init__.py`: `client.setex(key, ttl, value)`,
again with no exception handling. -/
def cache_set (c : CacheState) (key : String) (value : JsonVal) (ttl : Nat) :
    Except CacheErr CacheState :=
  if c.up then
    Except.ok { c with entries := Function.update c.entries key (some (value, ttl)) }
  else Except.error CacheErr.unavailable

/-- `cache_get_json` from `cache/__init__.py`: `cache_get`, then
`json.loads` with only `JSONDecodeError` caught (a malformed value is
`None`, i.e. a miss); any other failure propagates. -/
def cache_get_json (c : CacheState) (key : String) :
    Except CacheErr (Option (Nat × String)) :=
  match cache_get c key with
  | Except.error e => Except.error e
  | Except.ok none => Except.ok none
  | Except.ok (some (JsonVal.obj i u)) => Except.ok (some (i, u))
  | Except.ok (some JsonVal.malformed) => Except.ok none

/-- `cache_set_json` from `cache/__init__.py`: `json.dumps` then
`cache_set`. -/
def cache_set_json (c : CacheState) (key : String) (value : Nat × String)
    (ttl : Nat) : Except CacheErr CacheState :=
  cache_set c key (JsonVal.obj value.1 value.2) ttl

/-- `make_cache_key(prefix, *args)` from `cache/__init__.py`: joins the
parts with `:`. -/
def make_cache_key (pre : String) (args : List String) : String :=
  String.intercalate ":" (pre :: args)

/-- The expiry test `if url.expires_at and url.expires_at < now` of
`redirect_to_url` (`main.py`): a missing `expires_at` is falsy. -/
def isExpired (expires_at : Option ℚ) (now : ℚ) : Bool :=
  match expires_at with
  | some e => decide (e < now)
  | none => false

/-- A row of the `urls` table (`models/url.py`), restricted to the fields
the redirect and lookup paths read or write. -/
structure URLRecord where
  id : Nat
  short_code : String
  long_url : String
  user_id : Option Nat
  is_active : Bool
  expires_at : Option ℚ
  click_count : Nat
  last_accessed_at : Option ℚ
deriving DecidableEq

/-- `URLRepository.get_by_short_code` from `db/repositories/url.py`: the
row with this `short_code` and `is_active == True` (for a unique-code
table, `find?` of the first match). -/
def get_by_short_code (db : List URLRecord) (short_code : String) :
    Option URLRecord :=
  db.find? (fun u => u.short_code = short_code ∧ u.is_active)

/-- `URLRepository.increment_click_count` from `db/repositories/url.py`:
mutate the fetched row — modelled as replacing the first row equal to it —
bumping `click_count` and setting `last_accessed_at` to the current
time. -/
def increment_click_count (db : List URLRecord) (url : URLRecord) (now : ℚ) :
    List URLRecord :=
  match db with
  | [] => []
  | u :: rest =>
    if u = url then
      { url with click_count := url.click_count + 1,
                 last_accessed_at := some now } :: rest
    else u :: increment_click_count rest url now

/-- A row of the `analytics` table (`models/analytics.py`) as
`AnalyticsRepository.create` writes it. -/
structure ClickEvent where
  url_id : Nat
  ip_address : Option String
  user_agent : Option String
  referer : Option String
deriving DecidableEq

/-- `AnalyticsRepository.create` from `db/repositories/analytics.py`:
append one click event. -/
def analytics_create (events : List ClickEvent) (url_id : Nat)
    (ip_address user_agent referer : Option String) : List ClickEvent :=
  events ++ [{ url_id := url_id, ip_address := ip_address,
               user_agent := user_agent, referer := referer }]

/-- The state the redirect endpoint touches: the `urls` table, the
`analytics` table and the Redis cache. -/
structure AppState where
  db : List URLRecord
  analytics : List ClickEvent
  cache : CacheState

/-- Outcome of `GET /{short_code}`: a 307 redirect, a 404, a 410, or an
unhandled exception (a raised cache error escapes the handler and the
framework answers 500). -/
inductive RedirectResult where
  | redirect (location : String) : RedirectResult
  | notFound : RedirectResult
  | gone : RedirectResult
  | serverError : RedirectResult
deriving DecidableEq

/-- The HTTP status each redirect outcome produces (`main.py`: 307 on
success, `HTTP_404_NOT_FOUND`, `HTTP_410_GONE`, 500 on an escaped
exception). -/
def redirectStatus : RedirectResult → Nat
  | RedirectResult.redirect _ => 307
  | RedirectResult.notFound => 404
  | RedirectResult.gone => 410
  | RedirectResult.serverError => 500

/-- `redirect_to_url` from `main.py` at time `now`, with the request
metadata `ip_address`/`user_agent`/`referer`: validate the format (404 on
failure), try the cache (a raised cache error propagates), on a hit
record a click only, on a miss fetch the active row (404 if absent, 410
if expired), then record a click, increment the counter and refill the
cache with `{id, long_url}` at `settings.redis_cache_ttl`. -/
def redirect_to_url (st : AppState) (short_code : String) (now : ℚ)
    (ip_address user_agent referer : Option String) :
    RedirectResult × AppState :=
  if ¬ is_valid_short_code short_code then (RedirectResult.notFound, st)
  else
    let cache_key := make_cache_key "url" [short_code]
    match cache_get_json st.cache cache_key with
    | Except.error _ => (RedirectResult.serverError, st)
    | Except.ok (some (url_id, long_url)) =>
      (RedirectResult.redirect long_url,
       { st with analytics :=
           analytics_create st.analytics url_id ip_address user_agent referer })
    | Except.ok none =>
      match get_by_short_code st.db short_code with
      | none => (RedirectResult.notFound, st)
      | some url =>
        if isExpired url.expires_at now then
          (RedirectResult.gone, st)
        else
          let analytics1 :=
            analytics_create st.analytics url.id ip_address user_agent referer
          let db1 := increment_click_count st.db url now
          match cache_set_json st.cache cache_key (url.id, url.long_url)
              settings.redis_cache_ttl with
          | Except.error _ =>
            (RedirectResult.serverError,
             { st with db := db1, analytics := analytics1 })
          | Except.ok cache1 =>
            (RedirectResult.redirect url.long_url,
             { db := db1, analytics := analytics1, cache := cache1 })

/-- Outcome of `GET /api/urls/{short_code}` (`api/urls.py`,
`get_url_info`): 400 on bad format, 404 when absent, otherwise the row. -/
inductive InfoResult where
  | badRequest : InfoResult
  | notFound : InfoResult
  | info (url : URLRecord) : InfoResult
deriving DecidableEq

/-- The HTTP status each lookup outcome produces (`api/urls.py`:
`HTTP_400_BAD_REQUEST`, `HTTP_404_NOT_FOUND`, 200 on success). -/
def infoStatus : InfoResult → Nat
  | InfoResult.badRequest => 400
  | InfoResult.notFound => 404
  | InfoResult.info _ => 200

/-- `get_url_info` from `api/urls.py`: validate the format (400 on
failure), fetch the active row (404 if absent) and return it; the handler
performs no write, which the unchanged returned state records. -/
def get_url_info (st : AppState) (short_code : String) :
    InfoResult × AppState :=
  if ¬ is_valid_short_code short_code then (InfoResult.badRequest, st)
  else
    match get_by_short_code st.db short_code with
    | none => (InfoResult.notFound, st)
    | some url => (InfoResult.info url, st)

/-- A concrete active, unexpired link used to exercise the endpoints. -/
def exampleURL : URLRecord :=
  { id := 1, short_code := "abc123", long_url := "http://example.com/x",
    user_id := none, is_active := true, expires_at := none,
    click_count := 0, last_accessed_at := none }

/-- A concrete link whose `expires_at` lies in the past of the test
instant `now = 100`. -/
def expiredURL : URLRecord :=
  { id := 2, short_code := "old123", long_url := "http://example.com/old",
    user_id := none, is_active := true, expires_at := some 50,
    click_count := 7, last_accessed_at := none }

/-- An empty, healthy cache. -/
def emptyCache : CacheState := { up := true, entries := fun _ => none }

/-- An unreachable cache: every operation on it raises. -/
def downCache : CacheState := { up := false, entries := fun _ => none }

/-- Application state holding the two example links, an empty analytics
table and an empty healthy cache. -/
def exampleState : AppState :=
  { db := [exampleURL, expiredURL], analytics := [], cache := emptyCache }

/-- `exampleState` with the cache down. -/
def exampleStateDown : AppState :=
  { db := [exampleURL, expiredURL], analytics := [], cache := downCache }

/-- `exampleState` with the snapshot of `exampleURL` already cached. -/
def exampleStateHit : AppState :=
  { db := [exampleURL, expiredURL], analytics := [],
    cache := { up := true,
               entries := Function.update (fun _ => none)
                 (make_cache_key "url" ["abc123"])
                 (some (JsonVal.obj 1 "http://example.com/x", 86400)) } }

/-- A Redis keyspace holding no rate-limit members at all (every key
absent: an absent sorted set reads as empty). -/
def emptyRedis : RedisState := fun _ => { members := ∅, expiresAt := none }

theorem base62_alphabet_length : BASE62_ALPHABET.length = 62 := by decide

theorem base62_indexOf_getD :
    ∀ r < 62, BASE62_ALPHABET.indexOf (BASE62_ALPHABET.getD r 'a') = r := by
  decide

theorem decode_base62_append_singleton (l : List Char) (c : Char) :
    decode_base62 (l ++ [c]) = decode_base62 l * 62 + BASE62_ALPHABET.indexOf c := by
  unfold decode_base62
  rw [List.foldl_append]
  rfl

theorem decode_encodeDigits (n : Nat) : decode_base62 (encodeDigits n) = n := by
  induction n using Nat.strong_induction_on with
  | _ n ih =>
    rw [encodeDigits]
    by_cases h : n = 0
    · simp [h, decode_base62]
    · simp only [h, dite_false]
      rw [decode_base62_append_singleton,
        ih (n / 62) (Nat.div_lt_self (Nat.pos_of_ne_zero h) (by norm_num)),
        base62_indexOf_getD (n % 62) (Nat.mod_lt _ (by norm_num))]
      rw [Nat.mul_comm]
      exact Nat.div_add_mod n 62

/-- **C4** — For every non-negative integer `n`,
`decode_base62(encode_base62(n)) == n`, and `encode_base62(0)` yields the
alphabet's first symbol. -/
theorem claim_C4_base62_roundtrip :
    (∀ n : Nat, decode_base62 (encode_base62 n) = n) ∧
    encode_base62 0 = ['a'] ∧ BASE62_ALPHABET.head? = some 'a' := by
  refine ⟨fun n => ?_, by decide, by decide⟩
  unfold encode_base62
  by_cases h : n = 0
  · simp only [h, if_true]
    decide
  · simp only [h, if_false]
    exact decode_encodeDigits n



/-- **C10** — `generate_unique_short_code` called with `custom_alias` equal
to the empty string treats the alias as absent: for every set of existing
codes it does not raise `InvalidAlias` but falls through to random code
generation exactly as if no alias had been supplied (Python's
`if custom_alias:` is falsy on `""`). -/
theorem claim_C10_empty_alias_falls_through :
    ∀ (s : Settings) (existing_codes : List String) (max_attempts : Nat)
      (choice : Nat → Char),
      generate_unique_short_code s existing_codes (some "") max_attempts choice
        = generate_unique_short_code s existing_codes none max_attempts choice ∧
      generate_unique_short_code s existing_codes (some "") max_attempts choice
        ≠ GenResult.invalidAlias := by
  intro s existing_codes max_attempts choice
  have hsame :
      generate_unique_short_code s existing_codes (some "") max_attempts choice
        = generate_unique_short_code s existing_codes none max_attempts choice := by
    unfold generate_unique_short_code
    simp
  refine ⟨hsame, ?_⟩
  rw [hsame]
  unfold generate_unique_short_code
  simp only
  cases tryDraws existing_codes choice s.short_code_length max_attempts 0 with
  | some c => simp
  | none =>
    cases tryDraws existing_codes choice (s.short_code_length + 1) max_attempts
        (s.short_code_length * max_attempts) with
    | some c => simp
    | none => simp

/-- **C8 counterexample** — the middleware enforces 20/min on the URL
creation path as a hardcoded constant, while the configuration default
`url_creation_limit_per_minute` is `10`, not `20`: the claimed value is
not a configuration default. -/
theorem claim_C8_counterexample :
    middlewareLimitFor "/api/urls/" = some 20 ∧
    settings.url_creation_limit_per_minute = 10 ∧ (10 : Nat) ≠ 20 := by
  refine ⟨?_, rfl, by decide⟩
  decide

/-- **C8 (amended)** — the per-endpoint limits enforced by the middleware
(URL creation 20/min, registration 5/min, login 10/min) come from the
hardcoded `rate_limits` literal; the configuration defaults are generic
IP 100/min, generic per-user 1000/hour and URL creation 10/min, and each
derived service limiter draws its limit from configuration with the
stated window. -/
theorem claim_C8_amended_limits :
    middlewareLimitFor "/api/urls/" = some 20 ∧
    middlewareLimitFor "/api/auth/register" = some 5 ∧
    middlewareLimitFor "/api/auth/login" = some 10 ∧
    settings.rate_limit_per_minute = 100 ∧
    settings.rate_limit_per_hour = 1000 ∧
    settings.url_creation_limit_per_minute = 10 ∧
    (∀ (s : Settings) (st : RedisState) (ip : String) (now : ℚ),
      check_ip_rate_limit s st ip now
        = check_rate_limit st ip s.rate_limit_per_minute 60 "ratelimit:ip" now) ∧
    (∀ (s : Settings) (st : RedisState) (uid : String) (now : ℚ),
      check_user_rate_limit s st uid now
        = check_rate_limit st uid s.rate_limit_per_hour 3600 "ratelimit:user" now) ∧
    (∀ (s : Settings) (st : RedisState) (uid : String) (now : ℚ),
      check_url_creation_limit s st uid now
        = check_rate_limit st uid s.url_creation_limit_per_minute 60
            "ratelimit:url_creation" now) := by
  refine ⟨by decide, by decide, by decide, rfl, rfl, rfl, ?_, ?_, ?_⟩ <;>
    intro s st i now <;> rfl

/-- **C1 counterexample** — `zremrangebyscore(key, 0, window_start)` uses an
inclusive range: with one member of score exactly `window_start`
(`now = 60`, `window_seconds = 60`, member score `0`), the member's score
is not strictly less than `now - window_seconds`, yet the call removes
it, so the claim's "exactly the members with score strictly less than
`now - window_seconds`" is false. -/
theorem claim_C1_counterexample :
    (0 : ℚ) ∈ (((fun _ => ({ members := {0}, expiresAt := none } : ZKey)) :
        RedisState) (rlKey "ratelimit" "ip1")).members ∧
    ¬ ((0 : ℚ) < 60 - 60) ∧
    (0 : ℚ) ∉
      ((check_rate_limit
          ((fun _ => ({ members := {0}, expiresAt := none } : ZKey)) : RedisState)
          "ip1" 1 60 "ratelimit" 60).1 (rlKey "ratelimit" "ip1")).members := by
  refine ⟨by simp, by norm_num, ?_⟩
  simp only [check_rate_limit, Function.update_same]
  norm_num

/-- **C1 (amended)** — `check_rate_limit(identifier, limit,
window_seconds, prefix)` removes from the sorted set at key
`prefix:identifier` exactly the members with score in the inclusive range
`[0, now - window_seconds]` (keeping the added member for `now`), counts
the members remaining before the new one is added, unconditionally adds a
member for `now`, sets the key's expiry to `window_seconds`, and returns
`is_allowed = (count_before_adding < limit)` and
`remaining = max(0, limit - count_before_adding - 1)`. -/
theorem claim_C1_amended_check_rate_limit
    (st : RedisState) (identifier : String) (limit : Nat)
    (window_seconds : ℚ) (pre : String) (now : ℚ) :
    (∀ m : ℚ,
      m ∈ ((check_rate_limit st identifier limit window_seconds pre now).1
            (rlKey pre identifier)).members ↔
        (m = now ∨ (m ∈ (st (rlKey pre identifier)).members ∧
          ¬ (0 ≤ m ∧ m ≤ now - window_seconds)))) ∧
    ((check_rate_limit st identifier limit window_seconds pre now).1
        (rlKey pre identifier)).expiresAt = some (now + window_seconds) ∧
    ((check_rate_limit st identifier limit window_seconds pre now).2.1 = true ↔
      ((st (rlKey pre identifier)).members.filter
        (fun s => ¬ (0 ≤ s ∧ s ≤ now - window_seconds))).card < limit) ∧
    (((check_rate_limit st identifier limit window_seconds pre now).2.2 : ℤ)
      = max 0 ((limit : ℤ) -
          (((st (rlKey pre identifier)).members.filter
            (fun s => ¬ (0 ≤ s ∧ s ≤ now - window_seconds))).card : ℤ) - 1)) := by
  refine ⟨?_, ?_, ?_, ?_⟩
  · intro m
    simp [check_rate_limit, Function.update_same]
  · simp [check_rate_limit, Function.update_same]
  · simp [check_rate_limit]
  · simp only [check_rate_limit]
    omega

theorem find?_decomp {α : Type} (p : α → Bool) (l : List α) (a : α)
    (h : l.find? p = some a) :
    ∃ l1 l2, l = l1 ++ a :: l2 ∧ ∀ b ∈ l1, p b = false := by
  induction l with
  | nil => simp at h
  | cons x xs ih =>
    by_cases hx : p x
    · rw [List.find?_cons_of_pos _ hx] at h
      have hxa : x = a := Option.some.inj h
      exact ⟨[], xs, by simp [hxa], by simp⟩
    · rw [List.find?_cons_of_neg _ hx] at h
      obtain ⟨l1, l2, hl, hb⟩ := ih h
      refine ⟨x :: l1, l2, by simp [hl], ?_⟩
      intro b hbmem
      rcases List.mem_cons.mp hbmem with hbx | hbl
      · simpa [hbx] using hx
      · exact hb b hbl

theorem increment_click_count_append (l1 l2 : List URLRecord)
    (url : URLRecord) (now : ℚ) (h : ∀ b ∈ l1, b ≠ url) :
    increment_click_count (l1 ++ url :: l2) url now
      = l1 ++ { url with click_count := url.click_count + 1,
                         last_accessed_at := some now } :: l2 := by
  induction l1 with
  | nil => simp [increment_click_count]
  | cons x xs ih =>
    have hx : x ≠ url := h x (by simp)
    simp only [List.cons_append, increment_click_count, if_neg hx,
      List.append_eq]
    rw [ih (fun b hb => h b (by simp [hb]))]

theorem cache_up_of_get_json_ok {c : CacheState} {key : String}
    {r : Option (Nat × String)}
    (h : cache_get_json c key = Except.ok r) : c.up = true := by
  by_cases hup : c.up = true
  · exact hup
  · have hfalse : c.up = false := by simpa using hup
    simp [cache_get_json, cache_get, hfalse] at h

/-- **C2** — on the redirect path, a cache-hit resolution never changes
the stored `urls` table (in particular no `click_count`), while a
cache-miss resolution of a valid, active, unexpired code increments that
link's `click_count` by exactly 1 (leaving every other row unchanged),
sets `last_accessed_at`, and writes `{id, long_url}` to the cache under
key `url:<short_code>` with the configured TTL. -/
theorem claim_C2_redirect_click_semantics :
    (∀ (st : AppState) (short_code : String) (now : ℚ)
       (ip ua ref : Option String) (v : Nat × String),
       cache_get_json st.cache (make_cache_key "url" [short_code])
         = Except.ok (some v) →
       (redirect_to_url st short_code now ip ua ref).2.db = st.db) ∧
    (∀ (st : AppState) (short_code : String) (now : ℚ)
       (ip ua ref : Option String) (url : URLRecord),
       is_valid_short_code short_code = true →
       cache_get_json st.cache (make_cache_key "url" [short_code])
         = Except.ok none →
       get_by_short_code st.db short_code = some url →
       isExpired url.expires_at now = false →
       ∃ l1 l2, st.db = l1 ++ url :: l2 ∧
         (∀ b ∈ l1, ¬ (b.short_code = short_code ∧ b.is_active = true)) ∧
         (redirect_to_url st short_code now ip ua ref).2.db
           = l1 ++ { url with click_count := url.click_count + 1,
                              last_accessed_at := some now } :: l2 ∧
         (redirect_to_url st short_code now ip ua ref).2.cache.entries
             (make_cache_key "url" [short_code])
           = some (JsonVal.obj url.id url.long_url, settings.redis_cache_ttl) ∧
         (redirect_to_url st short_code now ip ua ref).1
           = RedirectResult.redirect url.long_url) := by
  constructor
  · intro st short_code now ip ua ref v hget
    by_cases hvalid : is_valid_short_code short_code = true
    · simp [redirect_to_url, hvalid, hget]
    · simp [redirect_to_url, hvalid]
  · intro st short_code now ip ua ref url hvalid hget hfind hexp
    have hup : st.cache.up = true := cache_up_of_get_json_ok hget
    have hred : redirect_to_url st short_code now ip ua ref
        = (RedirectResult.redirect url.long_url,
           { db := increment_click_count st.db url now,
             analytics := analytics_create st.analytics url.id ip ua ref,
             cache := { st.cache with
               entries := Function.update st.cache.entries
                 (make_cache_key "url" [short_code])
                 (some (JsonVal.obj url.id url.long_url,
                        settings.redis_cache_ttl)) } }) := by
      simp [redirect_to_url, hvalid, hget, hfind, hexp, cache_set_json,
        cache_set, hup]
    have hfind' : List.find?
        (fun u => decide (u.short_code = short_code) && u.is_active) st.db
        = some url := by simpa [get_by_short_code] using hfind
    have hpu := List.find?_some hfind'
    obtain ⟨l1, l2, hdb, hl1⟩ := find?_decomp _ st.db url hfind'
    have hne : ∀ b ∈ l1, b ≠ url := by
      intro b hb hbu
      have hfalse := hl1 b hb
      rw [hbu, hpu] at hfalse
      simp at hfalse
    refine ⟨l1, l2, hdb, ?_, ?_, ?_, ?_⟩
    · intro b hb hcon
      have hfalse := hl1 b hb
      rw [hcon.1, hcon.2] at hfalse
      simp at hfalse
    · rw [hred]
      simp only
      rw [hdb, increment_click_count_append _ _ _ _ hne]
    · rw [hred]
      simp [Function.update_same]
    · rw [hred]

/-- **C2 witness** — the hit and miss parts of the claim evaluated on the
concrete example state: a hit on the cached `abc123` leaves the table
unchanged; a miss on `abc123` bumps exactly its row and writes the
snapshot at the configured TTL. -/
theorem claim_C2_witness :
    ((redirect_to_url exampleStateHit "abc123" 100 none none none).2.db
      = exampleStateHit.db) ∧
    (∃ l1 l2, exampleState.db = l1 ++ exampleURL :: l2 ∧
      (∀ b ∈ l1, ¬ (b.short_code = "abc123" ∧ b.is_active = true)) ∧
      (redirect_to_url exampleState "abc123" 100 none none none).2.db
        = l1 ++ { exampleURL with click_count := exampleURL.click_count + 1,
                                  last_accessed_at := some 100 } :: l2 ∧
      (redirect_to_url exampleState "abc123" 100 none none none).2.cache.entries
          (make_cache_key "url" ["abc123"])
        = some (JsonVal.obj exampleURL.id exampleURL.long_url,
                settings.redis_cache_ttl) ∧
      (redirect_to_url exampleState "abc123" 100 none none none).1
        = RedirectResult.redirect exampleURL.long_url) :=
  ⟨claim_C2_redirect_click_semantics.1 exampleStateHit "abc123" 100 none none
      none (1, "http://example.com/x") rfl,
   claim_C2_redirect_click_semantics.2 exampleState "abc123" 100 none none
      none exampleURL rfl rfl rfl rfl⟩

/-- **C5** — a cache-miss lookup of a short code whose stored (active)
link has `expires_at` set and in the past returns **Gone** and changes no
state at all: no cache refill, no click event, no counter increment. -/
theorem claim_C5_expired_gone :
    ∀ (st : AppState) (short_code : String) (now : ℚ)
      (ip ua ref : Option String) (url : URLRecord) (e : ℚ),
      is_valid_short_code short_code = true →
      cache_get_json st.cache (make_cache_key "url" [short_code])
        = Except.ok none →
      get_by_short_code st.db short_code = some url →
      url.expires_at = some e → e < now →
      redirect_to_url st short_code now ip ua ref = (RedirectResult.gone, st) := by
  intro st short_code now ip ua ref url e hvalid hget hfind hsome hlt
  have hexp : isExpired url.expires_at now = true := by
    simp [isExpired, hsome, hlt]
  simp [redirect_to_url, hvalid, hget, hfind, hexp]

/-- **C5 witness** — requesting `old123` (expired at 50) at time 100 on
the concrete example state returns Gone with the state untouched. -/
theorem claim_C5_witness :
    redirect_to_url exampleState "old123" 100 none none none
      = (RedirectResult.gone, exampleState) :=
  claim_C5_expired_gone exampleState "old123" 100 none none none expiredURL 50
    rfl rfl rfl rfl (by decide)

/-- **C3** — evidence against the claim on the code: with the cache
entirely down and a valid, active, unexpired code whose row the durable
store holds, `redirect_to_url` does not fall through to the store — the
raised cache error escapes the handler (a 500), and the long URL is not
returned.  No cache operation in `cache/__init__.py` catches a connection
failure, and `redirect_to_url` wraps none of its cache calls. -/
theorem claim_C3_cache_down_not_recovered :
    redirect_to_url exampleStateDown "abc123" 100 none none none
      = (RedirectResult.serverError, exampleStateDown) ∧
    get_by_short_code exampleStateDown.db "abc123" = some exampleURL ∧
    isExpired exampleURL.expires_at 100 = false ∧
    (redirect_to_url exampleStateDown "abc123" 100 none none none).1
      ≠ RedirectResult.redirect exampleURL.long_url := by
  refine ⟨rfl, rfl, rfl, ?_⟩
  rw [show redirect_to_url exampleStateDown "abc123" 100 none none none
      = (RedirectResult.serverError, exampleStateDown) from rfl]
  simp

/-- **C9 counterexample** — the lookup-without-redirect endpoint answers
400 Bad Request for the invalidly formatted code `"ab"`, while a missing
well-formed code answers 404 Not Found: the two external signals differ,
and the redirect endpoint answers 404 for the same invalid code. -/
theorem claim_C9_counterexample :
    infoStatus (get_url_info exampleState "ab").1 = 400 ∧
    infoStatus (get_url_info exampleState "zzz999").1 = 404 ∧
    (400 : Nat) ≠ 404 ∧
    redirectStatus (redirect_to_url exampleState "ab" 100 none none none).1
      = 404 := by
  refine ⟨rfl, rfl, by decide, rfl⟩

/-- **C9 (amended)** — the lookup-without-redirect operation applies the
same format validator as redirect step 1 and records no click (it changes
no state), but an invalid format produces 400 Bad Request — a distinct
external signal from the 404 Not Found a missing code produces — whereas
the redirect path answers 404 for both. -/
theorem claim_C9_amended_lookup_semantics :
    (∀ (st : AppState) (short_code : String),
      is_valid_short_code short_code = false →
      get_url_info st short_code = (InfoResult.badRequest, st) ∧
      infoStatus (get_url_info st short_code).1 = 400 ∧
      (∀ (now : ℚ) (ip ua ref : Option String),
        redirectStatus (redirect_to_url st short_code now ip ua ref).1 = 404)) ∧
    (∀ (st : AppState) (short_code : String),
      is_valid_short_code short_code = true →
      get_by_short_code st.db short_code = none →
      get_url_info st short_code = (InfoResult.notFound, st) ∧
      infoStatus (get_url_info st short_code).1 = 404) ∧
    (∀ (st : AppState) (short_code : String),
      (get_url_info st short_code).2 = st) := by
  refine ⟨?_, ?_, ?_⟩
  · intro st short_code hvalid
    refine ⟨by simp [get_url_info, hvalid],
      by simp [get_url_info, hvalid, infoStatus], ?_⟩
    intro now ip ua ref
    simp [redirect_to_url, hvalid, redirectStatus]
  · intro st short_code hvalid hfind
    constructor
    · simp [get_url_info, hvalid, hfind]
    · simp [get_url_info, hvalid, hfind, infoStatus]
  · intro st short_code
    by_cases hvalid : is_valid_short_code short_code = true
    · cases hfind : get_by_short_code st.db short_code with
      | none => simp [get_url_info, hvalid, hfind]
      | some u => simp [get_url_info, hvalid, hfind]
    · have hfalse : is_valid_short_code short_code = false := by
        simpa using hvalid
      simp [get_url_info, hfalse]

/-- **C9 amended witness** — the amended statement evaluated on the
concrete example state: `"ab"` gives 400 at the lookup and 404 at the
redirect, the missing `"zzz999"` gives 404, and neither call changes the
state. -/
theorem claim_C9_amended_witness :
    (get_url_info exampleState "ab" = (InfoResult.badRequest, exampleState) ∧
      infoStatus (get_url_info exampleState "ab").1 = 400 ∧
      redirectStatus (redirect_to_url exampleState "ab" 100 none none none).1
        = 404) ∧
    (get_url_info exampleState "zzz999" = (InfoResult.notFound, exampleState) ∧
      infoStatus (get_url_info exampleState "zzz999").1 = 404) :=
  ⟨⟨(claim_C9_amended_lookup_semantics.1 exampleState "ab" rfl).1,
    (claim_C9_amended_lookup_semantics.1 exampleState "ab" rfl).2.1,
    (claim_C9_amended_lookup_semantics.1 exampleState "ab" rfl).2.2 100
      none none none⟩,
   ⟨(claim_C9_amended_lookup_semantics.2.1 exampleState "zzz999" rfl rfl).1,
    (claim_C9_amended_lookup_semantics.2.1 exampleState "zzz999" rfl rfl).2⟩⟩

theorem tryDraws_eq_none_iff (existing_codes : List String)
    (choice : Nat → Char) (length : Nat) : ∀ (attempts pos : Nat),
    tryDraws existing_codes choice length attempts pos = none ↔
      ∀ i < attempts,
        generate_short_code choice (pos + i * length) length ∈ existing_codes := by
  intro attempts
  induction attempts with
  | zero => intro pos; simp [tryDraws]
  | succ a ih =>
    intro pos
    simp only [tryDraws]
    by_cases h0 : generate_short_code choice pos length ∈ existing_codes
    · rw [if_pos h0, ih (pos + length)]
      constructor
      · intro hall i hi
        cases i with
        | zero => simpa using h0
        | succ i' =>
          have hmem := hall i' (by omega)
          have harith : pos + length + i' * length = pos + (i' + 1) * length := by
            ring
          rwa [harith] at hmem
      · intro hall i hi
        have hmem := hall (i + 1) (by omega)
        have harith : pos + (i + 1) * length = pos + length + i * length := by
          ring
        rwa [harith] at hmem
    · rw [if_neg h0]
      constructor
      · intro hcon; simp at hcon
      · intro hall
        have hmem := hall 0 (by omega)
        simp at hmem
        exact absurd hmem h0

theorem tryDraws_first_win (existing_codes : List String)
    (choice : Nat → Char) (length : Nat) : ∀ (attempts pos j : Nat),
    j < attempts →
    (∀ i < j,
      generate_short_code choice (pos + i * length) length ∈ existing_codes) →
    generate_short_code choice (pos + j * length) length ∉ existing_codes →
    tryDraws existing_codes choice length attempts pos
      = some (generate_short_code choice (pos + j * length) length) := by
  intro attempts
  induction attempts with
  | zero => intro pos j hj _ _; omega
  | succ a ih =>
    intro pos j hj hprev hout
    simp only [tryDraws]
    cases j with
    | zero =>
      have hout0 : generate_short_code choice pos length ∉ existing_codes := by
        simpa using hout
      rw [if_neg hout0]
      simp
    | succ j' =>
      have h0 : generate_short_code choice pos length ∈ existing_codes := by
        have hmem := hprev 0 (by omega)
        simpa using hmem
      rw [if_pos h0]
      have hprev' : ∀ i < j',
          generate_short_code choice (pos + length + i * length) length
            ∈ existing_codes := by
        intro i hi
        have hmem := hprev (i + 1) (by omega)
        have harith : pos + (i + 1) * length = pos + length + i * length := by
          ring
        rwa [harith] at hmem
      have hout' : generate_short_code choice (pos + length + j' * length) length
          ∉ existing_codes := by
        have harith : pos + (j' + 1) * length = pos + length + j' * length := by
          ring
        rwa [harith] at hout
      have hres := ih (pos + length) j' (by omega) hprev' hout'
      rw [hres]
      have harith : pos + length + j' * length = pos + (j' + 1) * length := by
        ring
      rw [harith]

/-- **C7** — `generate_unique_short_code(existing_codes, custom_alias,
max_attempts)`: a given (non-empty) custom alias fails with InvalidAlias
unless it validates, fails with AliasTaken if already among the existing
codes, and is otherwise returned verbatim; with no alias, the function
makes up to `max_attempts` draws at the default length and returns the
first one absent from the existing codes, then up to `max_attempts` more
draws at default length + 1, and returns None exactly when both rounds
are exhausted. -/
theorem claim_C7_generate_unique_short_code :
    ∀ (s : Settings) (existing_codes : List String) (max_attempts : Nat)
      (choice : Nat → Char),
      (∀ a : String, a ≠ "" → is_valid_short_code a = false →
        generate_unique_short_code s existing_codes (some a) max_attempts choice
          = GenResult.invalidAlias) ∧
      (∀ a : String, a ≠ "" → is_valid_short_code a = true →
        a ∈ existing_codes →
        generate_unique_short_code s existing_codes (some a) max_attempts choice
          = GenResult.aliasTaken) ∧
      (∀ a : String, a ≠ "" → is_valid_short_code a = true →
        a ∉ existing_codes →
        generate_unique_short_code s existing_codes (some a) max_attempts choice
          = GenResult.code a) ∧
      (generate_unique_short_code s existing_codes none max_attempts choice
          = GenResult.exhausted ↔
        ((∀ i < max_attempts, generate_short_code choice
            (i * s.short_code_length) s.short_code_length ∈ existing_codes) ∧
         (∀ i < max_attempts, generate_short_code choice
            (s.short_code_length * max_attempts + i * (s.short_code_length + 1))
            (s.short_code_length + 1) ∈ existing_codes))) ∧
      (∀ j, j < max_attempts →
        (∀ i < j, generate_short_code choice (i * s.short_code_length)
          s.short_code_length ∈ existing_codes) →
        generate_short_code choice (j * s.short_code_length)
          s.short_code_length ∉ existing_codes →
        generate_unique_short_code s existing_codes none max_attempts choice
          = GenResult.code (generate_short_code choice
              (j * s.short_code_length) s.short_code_length)) ∧
      ((∀ i < max_attempts, generate_short_code choice
          (i * s.short_code_length) s.short_code_length ∈ existing_codes) →
        ∀ j, j < max_attempts →
        (∀ i < j, generate_short_code choice
          (s.short_code_length * max_attempts + i * (s.short_code_length + 1))
          (s.short_code_length + 1) ∈ existing_codes) →
        generate_short_code choice
          (s.short_code_length * max_attempts + j * (s.short_code_length + 1))
          (s.short_code_length + 1) ∉ existing_codes →
        generate_unique_short_code s existing_codes none max_attempts choice
          = GenResult.code (generate_short_code choice
              (s.short_code_length * max_attempts + j * (s.short_code_length + 1))
              (s.short_code_length + 1))) := by
  intro s existing_codes max_attempts choice
  refine ⟨?_, ?_, ?_, ?_, ?_, ?_⟩
  · intro a ha hv
    simp [generate_unique_short_code, ha, hv]
  · intro a ha hv hmem
    simp [generate_unique_short_code, ha, hv, hmem]
  · intro a ha hv hmem
    simp [generate_unique_short_code, ha, hv, hmem]
  · constructor
    · intro hres
      cases h1 : tryDraws existing_codes choice s.short_code_length
          max_attempts 0 with
      | some c => simp [generate_unique_short_code, h1] at hres
      | none =>
        cases h2 : tryDraws existing_codes choice (s.short_code_length + 1)
            max_attempts (s.short_code_length * max_attempts) with
        | some c => simp [generate_unique_short_code, h1, h2] at hres
        | none =>
          have ha1 := (tryDraws_eq_none_iff existing_codes choice
            s.short_code_length max_attempts 0).mp h1
          have ha2 := (tryDraws_eq_none_iff existing_codes choice
            (s.short_code_length + 1) max_attempts
            (s.short_code_length * max_attempts)).mp h2
          refine ⟨fun i hi => ?_, fun i hi => ha2 i hi⟩
          have hmem := ha1 i hi
          rwa [Nat.zero_add] at hmem
    · intro hall
      have h1 : tryDraws existing_codes choice s.short_code_length
          max_attempts 0 = none := by
        rw [tryDraws_eq_none_iff]
        intro i hi
        rw [Nat.zero_add]
        exact hall.1 i hi
      have h2 : tryDraws existing_codes choice (s.short_code_length + 1)
          max_attempts (s.short_code_length * max_attempts) = none := by
        rw [tryDraws_eq_none_iff]
        exact hall.2
      simp [generate_unique_short_code, h1, h2]
  · intro j hj hprev hout
    have h1 := tryDraws_first_win existing_codes choice s.short_code_length
      max_attempts 0 j hj
      (by intro i hi; rw [Nat.zero_add]; exact hprev i hi)
      (by rw [Nat.zero_add]; exact hout)
    rw [Nat.zero_add] at h1
    simp [generate_unique_short_code, h1]
  · intro hall j hj hprev hout
    have h1 : tryDraws existing_codes choice s.short_code_length
        max_attempts 0 = none := by
      rw [tryDraws_eq_none_iff]
      intro i hi
      rw [Nat.zero_add]
      exact hall i hi
    have h2 := tryDraws_first_win existing_codes choice
      (s.short_code_length + 1) max_attempts
      (s.short_code_length * max_attempts) j hj hprev hout
    simp [generate_unique_short_code, h1, h2]

/-- **C7 witness** — the claim evaluated on concrete inputs: alias `"ab"`
is invalid, alias `"abc"` is taken, alias `"abcd"` is returned verbatim;
with the constant oracle always answering `'a'` every draw of round one
is `"aaaaaa"` and of round two `"aaaaaaa"`, so against an existing set
containing both, two attempts per round exhaust to None, while against
`["abc"]` the very first draw wins. -/
theorem claim_C7_witness :
    generate_unique_short_code settings ["abc"] (some "ab") 5 (fun _ => 'a')
      = GenResult.invalidAlias ∧
    generate_unique_short_code settings ["abc"] (some "abc") 5 (fun _ => 'a')
      = GenResult.aliasTaken ∧
    generate_unique_short_code settings ["abc"] (some "abcd") 5 (fun _ => 'a')
      = GenResult.code "abcd" ∧
    generate_unique_short_code settings ["aaaaaa", "aaaaaaa"] none 2
      (fun _ => 'a') = GenResult.exhausted ∧
    generate_unique_short_code settings ["abc"] none 2 (fun _ => 'a')
      = GenResult.code "aaaaaa" :=
  ⟨(claim_C7_generate_unique_short_code settings ["abc"] 5 (fun _ => 'a')).1
      "ab" (by decide) (by decide),
   (claim_C7_generate_unique_short_code settings ["abc"] 5 (fun _ => 'a')).2.1
      "abc" (by decide) (by decide) (by decide),
   (claim_C7_generate_unique_short_code settings ["abc"] 5 (fun _ => 'a')).2.2.1
      "abcd" (by decide) (by decide) (by decide),
   (claim_C7_generate_unique_short_code settings ["aaaaaa", "aaaaaaa"] 2
      (fun _ => 'a')).2.2.2.1.mpr ⟨by decide, by decide⟩,
   (claim_C7_generate_unique_short_code settings ["abc"] 2
      (fun _ => 'a')).2.2.2.2.1 0 (by decide) (by decide) (by decide)⟩

theorem check_rate_limit_key (st : RedisState) (identifier : String)
    (limit : Nat) (w : ℚ) (pre : String) (now : ℚ) :
    ((check_rate_limit st identifier limit w pre now).1
        (rlKey pre identifier)).members
      = insert now ((st (rlKey pre identifier)).members.filter
          (fun s => ¬ (0 ≤ s ∧ s ≤ now - w))) ∧
    (check_rate_limit st identifier limit w pre now).2.1
      = decide (((st (rlKey pre identifier)).members.filter
          (fun s => ¬ (0 ≤ s ∧ s ≤ now - w))).card < limit) := by
  constructor <;> simp [check_rate_limit, Function.update_same]

/-- **C6** — with `limit = 3` and `window_seconds = 60`, four
`check_rate_limit` calls for the same identifier within the window
(`0 ≤ t1 < t2 < t3 < t4`, `t4 - t1 < 60`) yield allowed, allowed,
allowed, denied; the member for the denied fourth request is still added,
so a blocked caller consumes a window slot; and a fifth call after time
has advanced past the window (`t5 > t4 + 60`) is allowed again. -/
theorem claim_C6_sliding_window_scenario
    (t1 t2 t3 t4 t5 : ℚ) (h0 : 0 ≤ t1) (h12 : t1 < t2) (h23 : t2 < t3)
    (h34 : t3 < t4) (hwin : t4 - t1 < 60) (h5 : t4 + 60 < t5) :
    ∀ (r1 r2 r3 r4 r5 : RedisState × Bool × Nat),
    r1 = check_rate_limit emptyRedis "ip1" 3 60 "ratelimit" t1 →
    r2 = check_rate_limit r1.1 "ip1" 3 60 "ratelimit" t2 →
    r3 = check_rate_limit r2.1 "ip1" 3 60 "ratelimit" t3 →
    r4 = check_rate_limit r3.1 "ip1" 3 60 "ratelimit" t4 →
    r5 = check_rate_limit r4.1 "ip1" 3 60 "ratelimit" t5 →
    r1.2.1 = true ∧ r2.2.1 = true ∧ r3.2.1 = true ∧ r4.2.1 = false ∧
    t4 ∈ (r4.1 (rlKey "ratelimit" "ip1")).members ∧
    r5.2.1 = true := by
  intro r1 r2 r3 r4 r5 e1 e2 e3 e4 e5
  have hne21 : t2 ≠ t1 := ne_of_gt h12
  have hne31 : t3 ≠ t1 := ne_of_gt (lt_trans h12 h23)
  have hne32 : t3 ≠ t2 := ne_of_gt h23
  have hp21 : ¬ (0 ≤ t1 ∧ t1 ≤ t2 - 60) := by
    rintro ⟨-, hle⟩; linarith
  have hp31 : ¬ (0 ≤ t1 ∧ t1 ≤ t3 - 60) := by
    rintro ⟨-, hle⟩; linarith
  have hp32 : ¬ (0 ≤ t2 ∧ t2 ≤ t3 - 60) := by
    rintro ⟨-, hle⟩; linarith
  have hp41 : ¬ (0 ≤ t1 ∧ t1 ≤ t4 - 60) := by
    rintro ⟨-, hle⟩; linarith
  have hp42 : ¬ (0 ≤ t2 ∧ t2 ≤ t4 - 60) := by
    rintro ⟨-, hle⟩; linarith
  have hp43 : ¬ (0 ≤ t3 ∧ t3 ≤ t4 - 60) := by
    rintro ⟨-, hle⟩; linarith
  have hq1 : (0 ≤ t1 ∧ t1 ≤ t5 - 60) := ⟨h0, by linarith⟩
  have hq2 : (0 ≤ t2 ∧ t2 ≤ t5 - 60) := ⟨by linarith, by linarith⟩
  have hq3 : (0 ≤ t3 ∧ t3 ≤ t5 - 60) := ⟨by linarith, by linarith⟩
  have hq4 : (0 ≤ t4 ∧ t4 ≤ t5 - 60) := ⟨by linarith, by linarith⟩
  have hk1 := check_rate_limit_key emptyRedis "ip1" 3 60 "ratelimit" t1
  have hm1 : (r1.1 (rlKey "ratelimit" "ip1")).members = {t1} := by
    rw [e1, hk1.1]
    simp [emptyRedis]
  have ha1 : r1.2.1 = true := by
    rw [e1, hk1.2]
    simp [emptyRedis]
  have hk2 := check_rate_limit_key r1.1 "ip1" 3 60 "ratelimit" t2
  have hf2 : ((r1.1 (rlKey "ratelimit" "ip1")).members.filter
      (fun s => ¬ (0 ≤ s ∧ s ≤ t2 - 60))) = {t1} := by
    rw [hm1, Finset.filter_singleton, if_pos hp21]
  have hm2 : (r2.1 (rlKey "ratelimit" "ip1")).members = insert t2 {t1} := by
    rw [e2, hk2.1, hf2]
  have ha2 : r2.2.1 = true := by
    rw [e2, hk2.2, hf2]
    simp
  have hk3 := check_rate_limit_key r2.1 "ip1" 3 60 "ratelimit" t3
  have hf3 : ((r2.1 (rlKey "ratelimit" "ip1")).members.filter
      (fun s => ¬ (0 ≤ s ∧ s ≤ t3 - 60))) = insert t2 {t1} := by
    rw [hm2, Finset.filter_insert, if_pos hp32, Finset.filter_singleton,
      if_pos hp31]
  have hm3 : (r3.1 (rlKey "ratelimit" "ip1")).members
      = insert t3 (insert t2 {t1}) := by
    rw [e3, hk3.1, hf3]
  have ha3 : r3.2.1 = true := by
    rw [e3, hk3.2, hf3]
    have hcard : (insert t2 ({t1} : Finset ℚ)).card = 2 := by
      rw [Finset.card_insert_of_not_mem (by simp [hne21])]
      simp
    simp [hcard]
  have hk4 := check_rate_limit_key r3.1 "ip1" 3 60 "ratelimit" t4
  have hf4 : ((r3.1 (rlKey "ratelimit" "ip1")).members.filter
      (fun s => ¬ (0 ≤ s ∧ s ≤ t4 - 60))) = insert t3 (insert t2 {t1}) := by
    rw [hm3, Finset.filter_insert, if_pos hp43, Finset.filter_insert,
      if_pos hp42, Finset.filter_singleton, if_pos hp41]
  have hcard4 : (insert t3 (insert t2 ({t1} : Finset ℚ))).card = 3 := by
    rw [Finset.card_insert_of_not_mem (by simp [hne31, hne32]),
      Finset.card_insert_of_not_mem (by simp [hne21])]
    simp
  have ha4 : r4.2.1 = false := by
    rw [e4, hk4.2, hf4]
    simp [hcard4]
  have hm4 : (r4.1 (rlKey "ratelimit" "ip1")).members
      = insert t4 (insert t3 (insert t2 {t1})) := by
    rw [e4, hk4.1, hf4]
  have hmem4 : t4 ∈ (r4.1 (rlKey "ratelimit" "ip1")).members := by
    rw [hm4]
    exact Finset.mem_insert_self t4 _
  have hk5 := check_rate_limit_key r4.1 "ip1" 3 60 "ratelimit" t5
  have hf5 : ((r4.1 (rlKey "ratelimit" "ip1")).members.filter
      (fun s => ¬ (0 ≤ s ∧ s ≤ t5 - 60))) = ∅ := by
    rw [hm4, Finset.filter_insert, if_neg (by simpa using hq4),
      Finset.filter_insert, if_neg (by simpa using hq3),
      Finset.filter_insert, if_neg (by simpa using hq2),
      Finset.filter_singleton, if_neg (by simpa using hq1)]
  have ha5 : r5.2.1 = true := by
    rw [e5, hk5.2, hf5]
    simp
  exact ⟨ha1, ha2, ha3, ha4, hmem4, ha5⟩

/-- **C6 witness** — the scenario evaluated at the concrete instants
0, 1, 2, 3 and 70: allowed, allowed, allowed, denied (with the denied
call's member still present), then allowed again. -/
theorem claim_C6_witness :
    (check_rate_limit emptyRedis "ip1" 3 60 "ratelimit" 0).2.1 = true ∧
    (check_rate_limit
      (check_rate_limit emptyRedis "ip1" 3 60 "ratelimit" 0).1
      "ip1" 3 60 "ratelimit" 1).2.1 = true ∧
    (check_rate_limit
      (check_rate_limit
        (check_rate_limit emptyRedis "ip1" 3 60 "ratelimit" 0).1
        "ip1" 3 60 "ratelimit" 1).1
      "ip1" 3 60 "ratelimit" 2).2.1 = true ∧
    (check_rate_limit
      (check_rate_limit
        (check_rate_limit
          (check_rate_limit emptyRedis "ip1" 3 60 "ratelimit" 0).1
          "ip1" 3 60 "ratelimit" 1).1
        "ip1" 3 60 "ratelimit" 2).1
      "ip1" 3 60 "ratelimit" 3).2.1 = false ∧
    (3 : ℚ) ∈
      ((check_rate_limit
        (check_rate_limit
          (check_rate_limit
            (check_rate_limit emptyRedis "ip1" 3 60 "ratelimit" 0).1
            "ip1" 3 60 "ratelimit" 1).1
          "ip1" 3 60 "ratelimit" 2).1
        "ip1" 3 60 "ratelimit" 3).1 (rlKey "ratelimit" "ip1")).members ∧
    (check_rate_limit
      (check_rate_limit
        (check_rate_limit
          (check_rate_limit
            (check_rate_limit emptyRedis "ip1" 3 60 "ratelimit" 0).1
            "ip1" 3 60 "ratelimit" 1).1
          "ip1" 3 60 "ratelimit" 2).1
        "ip1" 3 60 "ratelimit" 3).1
      "ip1" 3 60 "ratelimit" 70).2.1 = true :=
  claim_C6_sliding_window_scenario 0 1 2 3 70 (by norm_num) (by norm_num)
    (by norm_num) (by norm_num) (by norm_num) (by norm_num) _ _ _ _ _
    rfl rfl rfl rfl rfl
